import Mathlib

set_option maxRecDepth 16000

/-!
Verification of the response cache and LLM-output recovery parser of
`bitrecs/llms/prompt_factory.py` (class `PromptFactory`).

Machine integers and floats: Python `time.time()` values are modelled as `Int`
(the code only compares differences against the integer TTL), and Python's
process-specific `hash` for strings is modelled as an explicit function
parameter `h : String → Int`, fixed within a "process".
-/

/-- JSON values as produced by Python `json.loads`.  Numbers keep their source
token (the claims under study never compare numeric values); objects are
association lists in document order (Python dicts preserve insertion order). -/
inductive Json where
  | null : Json
  | bool : Bool → Json
  | num : String → Json
  | str : String → Json
  | arr : List Json → Json
  | obj : List (String × Json) → Json

/-- `CACHE_TTL = 300` (prompt_factory.py line 23). -/
def CACHE_TTL : Int := 300

/-- The two class-level dictionaries `_response_cache` and `_cache_timestamps`
(prompt_factory.py lines 21-22), modelled as association lists with the unique
keys maintained by Python dicts. -/
structure CacheState where
  response_cache : List (String × List Json)
  cache_timestamps : List (String × Int)

/-- Python dict lookup `d[k]` / `k in d`. -/
def dictLookup {α : Type} : List (String × α) → String → Option α
  | [], _ => none
  | (k, v) :: rest, key => if k = key then some v else dictLookup rest key

/-- Python dict assignment `d[k] = v`: replaces the value of an existing key in
place, appends a new key at the end. -/
def dictInsert {α : Type} : List (String × α) → String → α → List (String × α)
  | [], key, v => [(key, v)]
  | (k, w) :: rest, key, v =>
    if k = key then (k, v) :: rest else (k, w) :: dictInsert rest key v

/-- Python `d.pop(k, None)`: removes the entry for `k` (dict keys are unique,
so removing every binding of `k` agrees with dict semantics on all states the
cache operations can reach). -/
def dictPop {α : Type} : List (String × α) → String → List (String × α)
  | [], _ => []
  | (k, v) :: rest, key =>
    if k = key then dictPop rest key else (k, v) :: dictPop rest key

/-- `PromptFactory._get_cache_key` (lines 97-102):
`context_hash = hash(context[:200])`, key `f"{sku}_{context_hash}_{num_recs}_{persona}"`.
`h` is the process-fixed string hash. -/
def _get_cache_key (h : String → Int) (sku : String) (context : String)
    (num_recs : Int) (persona : String) : String :=
  sku ++ "_" ++ toString (h (String.mk (context.data.take 200))) ++ "_"
    ++ toString num_recs ++ "_" ++ persona

/-- `PromptFactory._get_cached_response` (lines 104-116), with the clock
injected as `now`.  Returns the Python return value and the state after the
call (lazy eviction of an expired entry mutates both dictionaries). -/
def _get_cached_response (st : CacheState) (now : Int) (cache_key : String) :
    Option (List Json) × CacheState :=
  match dictLookup st.response_cache cache_key with
  | some v =>
    let timestamp := (dictLookup st.cache_timestamps cache_key).getD 0
    if now - timestamp < CACHE_TTL then
      (some v, st)
    else
      (none, ⟨dictPop st.response_cache cache_key, dictPop st.cache_timestamps cache_key⟩)
  | none => (none, st)

/-- `PromptFactory._cache_response` (lines 118-123). -/
def _cache_response (st : CacheState) (now : Int) (cache_key : String)
    (response : List Json) : CacheState :=
  ⟨dictInsert st.response_cache cache_key response,
   dictInsert st.cache_timestamps cache_key now⟩

/-- `PromptFactory.get_cached_response` (lines 211-223): derives the key, reads
the cache, and returns the cached list only when `if cached:` is truthy — a
`None` result and an empty cached list are both falsy in Python. -/
def get_cached_response (st : CacheState) (now : Int) (h : String → Int)
    (sku : String) (context : String) (num_recs : Int) (persona : String) :
    Option (List Json) × CacheState :=
  let cache_key := _get_cache_key h sku context num_recs persona
  let r := _get_cached_response st now cache_key
  match r.1 with
  | some cached => if cached.isEmpty then (none, r.2) else (some cached, r.2)
  | none => (none, r.2)

/-- `PromptFactory.store_response_in_cache` (lines 225-229). -/
def store_response_in_cache (st : CacheState) (now : Int) (h : String → Int)
    (sku : String) (context : String) (num_recs : Int) (persona : String)
    (response : List Json) : CacheState :=
  _cache_response st now (_get_cache_key h sku context num_recs persona) response

/-- One cache operation at the derived-key level: `put` is `_cache_response`,
`get` is `_get_cached_response`, each with its observation time. -/
inductive CacheOp where
  | put : String → List Json → Int → CacheOp
  | get : String → Int → CacheOp

/-- Effect of one operation on the two dictionaries. -/
def cacheExec (st : CacheState) : CacheOp → CacheState
  | CacheOp.put k r t => _cache_response st t k r
  | CacheOp.get k t => (_get_cached_response st t k).2

/-- Run a sequence of operations from the initial empty cache. -/
def cacheRun (ops : List CacheOp) : CacheState :=
  ops.foldl cacheExec ⟨[], []⟩

/-- The two dictionaries hold exactly the same keys. -/
def cacheInSync (st : CacheState) : Prop :=
  ∀ k, (dictLookup st.response_cache k).isSome = (dictLookup st.cache_timestamps k).isSome

/-! ## Model of Python `json.loads` (the standard-library decoder) -/

/-- JSON whitespace skipped by the decoder: space, tab, newline, carriage return. -/
def isJsonWs (c : Char) : Bool := c = ' ' || c = '\t' || c = '\n' || c = '\r'

/-- Skip JSON whitespace. -/
def skipWs (l : List Char) : List Char := l.dropWhile isJsonWs

/-- Value of one hexadecimal digit. -/
def hexVal (c : Char) : Option Nat :=
  if '0' ≤ c ∧ c ≤ '9' then some (c.toNat - 48)
  else if 'a' ≤ c ∧ c ≤ 'f' then some (c.toNat - 87)
  else if 'A' ≤ c ∧ c ≤ 'F' then some (c.toNat - 55)
  else none

/-- Body of a JSON string after the opening quote, per CPython `py_scanstring`
in strict mode: backslash escapes, `\uXXXX` with surrogate-pair joining, raw
control characters rejected.  A lone surrogate (representable in a Python
`str` but not in a Lean `Char`) is mapped to U+FFFD; no claim depends on it.
Fuelled to keep the recursion structural; every step consumes at least one
input character, so the `length + 1` fuel the callers pass never runs out. -/
def parseStringBody : Nat → List Char → Option (List Char × List Char)
  | 0, _ => none
  | Nat.succ fuel, l =>
    match l with
    | [] => none
    | c :: rest =>
      if c = '"' then some ([], rest)
      else if c = '\\' then
        match rest with
        | [] => none
        | e :: rest2 =>
          if e = '"' then (parseStringBody fuel rest2).map (fun p => ('"' :: p.1, p.2))
          else if e = '\\' then (parseStringBody fuel rest2).map (fun p => ('\\' :: p.1, p.2))
          else if e = '/' then (parseStringBody fuel rest2).map (fun p => ('/' :: p.1, p.2))
          else if e = 'b' then (parseStringBody fuel rest2).map (fun p => (Char.ofNat 8 :: p.1, p.2))
          else if e = 'f' then (parseStringBody fuel rest2).map (fun p => (Char.ofNat 12 :: p.1, p.2))
          else if e = 'n' then (parseStringBody fuel rest2).map (fun p => ('\n' :: p.1, p.2))
          else if e = 'r' then (parseStringBody fuel rest2).map (fun p => (Char.ofNat 13 :: p.1, p.2))
          else if e = 't' then (parseStringBody fuel rest2).map (fun p => ('\t' :: p.1, p.2))
          else if e = 'u' then
            match rest2 with
            | h1 :: h2 :: h3 :: h4 :: rest3 =>
              match hexVal h1, hexVal h2, hexVal h3, hexVal h4 with
              | some a, some b, some c2, some d =>
                let n := a * 4096 + b * 256 + c2 * 16 + d
                if 55296 ≤ n ∧ n ≤ 56319 then
                  match rest3 with
                  | '\\' :: 'u' :: g1 :: g2 :: g3 :: g4 :: rest4 =>
                    match hexVal g1, hexVal g2, hexVal g3, hexVal g4 with
                    | some a2, some b2, some c3, some d2 =>
                      let m := a2 * 4096 + b2 * 256 + c3 * 16 + d2
                      if 56320 ≤ m ∧ m ≤ 57343 then
                        (parseStringBody fuel rest4).map
                          (fun p => (Char.ofNat (65536 + (n - 55296) * 1024 + (m - 56320)) :: p.1, p.2))
                      else
                        (parseStringBody fuel ('\\' :: 'u' :: g1 :: g2 :: g3 :: g4 :: rest4)).map
                          (fun p => (Char.ofNat 65533 :: p.1, p.2))
                    | _, _, _, _ =>
                      (parseStringBody fuel ('\\' :: 'u' :: g1 :: g2 :: g3 :: g4 :: rest4)).map
                        (fun p => (Char.ofNat 65533 :: p.1, p.2))
                  | _ => (parseStringBody fuel rest3).map (fun p => (Char.ofNat 65533 :: p.1, p.2))
                else if 56320 ≤ n ∧ n ≤ 57343 then
                  (parseStringBody fuel rest3).map (fun p => (Char.ofNat 65533 :: p.1, p.2))
                else
                  (parseStringBody fuel rest3).map (fun p => (Char.ofNat n :: p.1, p.2))
              | _, _, _, _ => none
            | _ => none
          else none
      else if c.toNat < 32 then none
      else (parseStringBody fuel rest).map (fun p => (c :: p.1, p.2))

/-- Optional fraction and exponent of a number token (regex
`(\.\d+)?([eE][-+]?\d+)?`), given the already-matched integer part. -/
def parseNumTail (intPart : List Char) (l : List Char) : Option (Json × List Char) :=
  let fr : List Char × List Char :=
    match l with
    | '.' :: r =>
      match r.span Char.isDigit with
      | (d :: ds, r2) => ('.' :: d :: ds, r2)
      | ([], _) => ([], l)
    | _ => ([], l)
  let l2 := fr.2
  let ex : List Char × List Char :=
    match l2 with
    | e :: r =>
      if e = 'e' ∨ e = 'E' then
        match r with
        | s :: r2 =>
          if s = '+' ∨ s = '-' then
            match r2.span Char.isDigit with
            | (d :: ds, r3) => (e :: s :: d :: ds, r3)
            | ([], _) => ([], l2)
          else
            match r.span Char.isDigit with
            | (d :: ds, r3) => (e :: d :: ds, r3)
            | ([], _) => ([], l2)
        | [] => ([], l2)
      else ([], l2)
    | [] => ([], l2)
  some (Json.num (String.mk (intPart ++ fr.1 ++ ex.1)), ex.2)

/-- A number token per the decoder regex `(-?(?:0|[1-9]\d*))(\.\d+)?([eE][-+]?\d+)?`. -/
def parseNumber (l : List Char) : Option (Json × List Char) :=
  let sp : List Char × List Char :=
    match l with
    | '-' :: r => (['-'], r)
    | _ => ([], l)
  match sp.2 with
  | c :: r =>
    if c = '0' then parseNumTail (sp.1 ++ ['0']) r
    else if c.isDigit then
      match r.span Char.isDigit with
      | (ds, r2) => parseNumTail (sp.1 ++ c :: ds) r2
    else none
  | [] => none

/-- Result of one recursive-descent step: a value, array elements, or object
members. -/
inductive POut where
  | v : Json → POut
  | vs : List Json → POut
  | ms : List (String × Json) → POut

/-- Which grammar production `parseCore` is working on. -/
inductive PMode where
  | value : PMode
  | elems : PMode
  | members : PMode

/-- One step of CPython's `_scan_once`: dispatch on the first character;
`rec` is the recursive descent at smaller fuel. -/
def scanValue (rec : PMode → List Char → Option (POut × List Char))
    (l : List Char) : Option (POut × List Char) :=
  match l with
  | '"' :: r =>
    (parseStringBody (r.length + 1) r).map
      (fun p => (POut.v (Json.str (String.mk p.1)), p.2))
  | '\x7b' :: r =>
    match skipWs r with
    | '\x7d' :: r1 => some (POut.v (Json.obj []), r1)
    | _ =>
      match rec PMode.members r with
      | some (POut.ms ms, r1) => some (POut.v (Json.obj ms), r1)
      | _ => none
  | '[' :: r =>
    match skipWs r with
    | ']' :: r1 => some (POut.v (Json.arr []), r1)
    | _ =>
      match rec PMode.elems r with
      | some (POut.vs vs, r1) => some (POut.v (Json.arr vs), r1)
      | _ => none
  | 't' :: 'r' :: 'u' :: 'e' :: r => some (POut.v (Json.bool true), r)
  | 'f' :: 'a' :: 'l' :: 's' :: 'e' :: r => some (POut.v (Json.bool false), r)
  | 'n' :: 'u' :: 'l' :: 'l' :: r => some (POut.v Json.null, r)
  | 'N' :: 'a' :: 'N' :: r => some (POut.v (Json.num "NaN"), r)
  | 'I' :: 'n' :: 'f' :: 'i' :: 'n' :: 'i' :: 't' :: 'y' :: r =>
    some (POut.v (Json.num "Infinity"), r)
  | '-' :: 'I' :: 'n' :: 'f' :: 'i' :: 'n' :: 'i' :: 't' :: 'y' :: r =>
    some (POut.v (Json.num "-Infinity"), r)
  | _ => (parseNumber l).map (fun p => (POut.v p.1, p.2))

/-- One step of CPython's `parse_array` element loop (input is just past `[`
or `,`): a value, then `,` to continue or `]` to finish. -/
def scanElems (rec : PMode → List Char → Option (POut × List Char))
    (l : List Char) : Option (POut × List Char) :=
  match rec PMode.value (skipWs l) with
  | some (POut.v v, r) =>
    (match skipWs r with
     | ',' :: r2 =>
       match rec PMode.elems r2 with
       | some (POut.vs vs, r3) => some (POut.vs (v :: vs), r3)
       | _ => none
     | ']' :: r2 => some (POut.vs [v], r2)
     | _ => none)
  | _ => none

/-- One step of CPython's `parse_object` member loop (input is just past `{`
or `,`): a string key, `:`, a value, then `,` to continue or `}` to finish. -/
def scanMembers (rec : PMode → List Char → Option (POut × List Char))
    (l : List Char) : Option (POut × List Char) :=
  match skipWs l with
  | '"' :: r =>
    (match parseStringBody (r.length + 1) r with
     | some (k, r1) =>
       (match skipWs r1 with
        | ':' :: r2 =>
          (match rec PMode.value (skipWs r2) with
           | some (POut.v v, r3) =>
             (match skipWs r3 with
              | ',' :: r4 =>
                (match rec PMode.members r4 with
                 | some (POut.ms ms, r5) => some (POut.ms ((String.mk k, v) :: ms), r5)
                 | _ => none)
              | '\x7d' :: r4 => some (POut.ms [(String.mk k, v)], r4)
              | _ => none)
           | _ => none)
        | _ => none)
     | none => none)
  | _ => none

/-- The recursive descent of CPython's pure-Python scanner, fuelled so that
the recursion is structural; `json_loads_opt` supplies ample fuel. -/
def parseCore : Nat → PMode → List Char → Option (POut × List Char)
  | 0, _, _ => none
  | Nat.succ fuel, PMode.value, l => scanValue (parseCore fuel) l
  | Nat.succ fuel, PMode.elems, l => scanElems (parseCore fuel) l
  | Nat.succ fuel, PMode.members, l => scanMembers (parseCore fuel) l

/-- `json.loads` on success: leading whitespace, one value, trailing
whitespace, nothing else ("Extra data" otherwise). -/
def json_loads_opt (l : List Char) : Option Json :=
  match parseCore (2 * l.length + 2) PMode.value (skipWs l) with
  | some (POut.v v, rest) => if (skipWs rest).isEmpty then some v else none
  | _ => none

/-- Python exceptions that the modelled code can raise. -/
inductive PyExc where
  | JSONDecodeError : PyExc
  | NameError : PyExc
deriving DecidableEq

/-- `json.loads` with its failure signal: any parse failure raises
`json.JSONDecodeError`. -/
def json_loads (l : List Char) : Except PyExc Json :=
  match json_loads_opt l with
  | some v => Except.ok v
  | none => Except.error PyExc.JSONDecodeError

/-! ## Model of `PromptFactory.tryparse_llm` (lines 249-362) -/

/-- Whitespace stripped by Python `str.strip()` (the ASCII whitespace set;
the code never feeds exotic Unicode whitespace through `strip`). -/
def isPyWs (c : Char) : Bool :=
  c = ' ' || c = '\t' || c = '\n' || c = '\r' || c = '\x0b' || c = '\x0c'

/-- Python `s.strip()`. -/
def pyStrip (l : List Char) : List Char :=
  ((l.dropWhile isPyWs).reverse.dropWhile isPyWs).reverse

/-- Python `s.replace("```json", "")`: scan left to right, deleting each
non-overlapping occurrence. -/
def replaceTicksJson : List Char → List Char
  | '`' :: '`' :: '`' :: 'j' :: 's' :: 'o' :: 'n' :: rest => replaceTicksJson rest
  | c :: rest => c :: replaceTicksJson rest
  | [] => []

/-- Python `s.replace("```", "")`. -/
def replaceTicks : List Char → List Char
  | '`' :: '`' :: '`' :: rest => replaceTicks rest
  | c :: rest => c :: replaceTicks rest
  | [] => []

/-- `cleaned_input` (lines 263-264):
`input.replace("```json", "").replace("```", "").strip()` and then once more
`.replace("```", "").strip()`. -/
def cleanedInput (l : List Char) : List Char :=
  pyStrip (replaceTicks (pyStrip (replaceTicks (replaceTicksJson l))))

/-- Index of the first occurrence of `c`, if any. -/
def pyFindAux (c : Char) : List Char → Option Nat
  | [] => none
  | x :: rest => if x = c then some 0 else (pyFindAux c rest).map (· + 1)

/-- Python `s.find(c, start)` (`none` for -1). -/
def pyFind (c : Char) (l : List Char) (start : Nat) : Option Nat :=
  (pyFindAux c (l.drop start)).map (· + start)

/-- Python `s.rfind(c)` (`none` for -1). -/
def pyRFind (c : Char) (l : List Char) : Option Nat :=
  (pyFindAux c l.reverse).map (fun i => l.length - 1 - i)

/-- Method 1 (lines 266-273), the pure outcome: direct `json.loads`, kept only
if the value is a list with at least one element. -/
def method1core (ci : List Char) : Option (List Json) :=
  match json_loads_opt ci with
  | some (Json.arr (x :: xs)) => some (x :: xs)
  | _ => none

/-- Method 1 with its exception discipline: only `json.JSONDecodeError` is
caught (lines 267, 272); any other exception would propagate. -/
def method1except (ci : List Char) : Except PyExc (Option (List Json)) :=
  match json_loads ci with
  | Except.ok (Json.arr (x :: xs)) => Except.ok (some (x :: xs))
  | Except.ok _ => Except.ok none
  | Except.error PyExc.JSONDecodeError => Except.ok none
  | Except.error e => Except.error e

/-- Method 2 (lines 275-287), the pure outcome: substring from the first `[`
to the last `]` (when the latter is strictly later), parsed and kept if a
non-empty list. -/
def method2core (ci : List Char) : Option (List Json) :=
  match pyFind '[' ci 0 with
  | none => none
  | some start =>
    match pyRFind ']' ci with
    | none => none
    | some stop =>
      if start < stop then
        match json_loads_opt ((ci.drop start).take (stop + 1 - start)) with
        | some (Json.arr (x :: xs)) => some (x :: xs)
        | _ => none
      else none

/-- Method 2 with its exception discipline (only `json.JSONDecodeError` is
caught, line 286). -/
def method2except (ci : List Char) : Except PyExc (Option (List Json)) :=
  match pyFind '[' ci 0 with
  | none => Except.ok none
  | some start =>
    match pyRFind ']' ci with
    | none => Except.ok none
    | some stop =>
      if start < stop then
        match json_loads ((ci.drop start).take (stop + 1 - start)) with
        | Except.ok (Json.arr (x :: xs)) => Except.ok (some (x :: xs))
        | Except.ok _ => Except.ok none
        | Except.error PyExc.JSONDecodeError => Except.ok none
        | Except.error e => Except.error e
      else Except.ok none

/-- The Method 3 scan loop (lines 292-310): from `current_pos`, find the next
`{`, pair it with the first `}` after it, parse the span, keep it when it is a
dict containing a `"sku"` key, and continue after the `}`.  A span that fails
to parse is skipped (`except json.JSONDecodeError: pass`).  `pos` strictly
increases each iteration, so the `length + 1` fuel never runs out. -/
def scanObjects (ci : List Char) : Nat → Nat → List Json
  | 0, _ => []
  | Nat.succ fuel, pos =>
    if pos < ci.length then
      match pyFind '\x7b' ci pos with
      | none => []
      | some s =>
        match pyFind '\x7d' ci s with
        | none => []
        | some e =>
          let found : List Json :=
            match json_loads_opt ((ci.drop s).take (e + 1 - s)) with
            | some (Json.obj fields) =>
              if fields.any (fun p => decide (p.1 = "sku")) then [Json.obj fields] else []
            | _ => []
          found ++ scanObjects ci fuel (e + 1)
    else []

/-- Method 3 (lines 289-316): succeed when at least one object was collected.
The whole block sits in `try ... except Exception`, and nothing in the model
raises inside it. -/
def method3core (ci : List Char) : Option (List Json) :=
  match scanObjects ci (ci.length + 1) 0 with
  | [] => none
  | x :: xs => some (x :: xs)

/-- The module `json_repair` is never imported by prompt_factory.py, so
evaluating `json_repair.repair_json` (line 320) raises `NameError` at call
time. -/
def json_repair_repair_json (_l : List Char) : Except PyExc (List Char) :=
  Except.error PyExc.NameError

/-- The body of the Method 4 `try:` block (lines 319-324): repair, re-parse,
keep a non-empty list. -/
def method4attempt (ci : List Char) : Except PyExc (Option (List Json)) :=
  match json_repair_repair_json ci with
  | Except.error e => Except.error e
  | Except.ok rep =>
    match json_loads rep with
    | Except.error e => Except.error e
    | Except.ok (Json.arr (x :: xs)) => Except.ok (some (x :: xs))
    | Except.ok _ => Except.ok none

/-- Method 4 (lines 318-326): the `except Exception` handler absorbs every
failure of the attempt, including the `NameError`. -/
def method4core (ci : List Char) : Option (List Json) :=
  match method4attempt ci with
  | Except.ok r => r
  | Except.error _ => none

/-- ASCII lowering (`str.lower()`; the salvage tokens are ASCII). -/
def asciiLower (c : Char) : Char :=
  if 'A' ≤ c ∧ c ≤ 'Z' then Char.ofNat (c.toNat + 32) else c

/-- `line.lower()`. -/
def lowerList (l : List Char) : List Char := l.map asciiLower

/-- Python `pat in s` for strings. -/
def containsSub (pat : List Char) : List Char → Bool
  | [] => pat.isEmpty
  | c :: rest => pat.isPrefixOf (c :: rest) || containsSub pat rest

/-- Python `s.split('\n')`. -/
def splitNl : List Char → List (List Char)
  | [] => [[]]
  | c :: rest =>
    if c = '\n' then [] :: splitNl rest
    else
      match splitNl rest with
      | h :: t => (c :: h) :: t
      | [] => [[c]]

/-- Attempt of the regex `"field":\s*"([^"]+)"` anchored at the start of `l`;
returns capture group 1.  The greedy `\s*` and `[^"]+` cannot backtrack
usefully (neither whitespace nor the captured run can absorb a quote), so the
match is deterministic. -/
def matchFieldHere (field : List Char) (l : List Char) : Option (List Char) :=
  let lead := '"' :: field ++ ['"', ':']
  if lead.isPrefixOf l then
    match (l.drop lead.length).dropWhile isPyWs with
    | '"' :: rest =>
      match rest.span (fun c => decide (c ≠ '"')) with
      | (v :: vs, '"' :: _) => some (v :: vs)
      | _ => none
    | _ => none
  else none

/-- `re.search` for the field pattern: leftmost position whose match attempt
succeeds. -/
def reSearchField (field : List Char) : List Char → Option (List Char)
  | [] => none
  | c :: rest =>
    match matchFieldHere field (c :: rest) with
    | some v => some v
    | none => reSearchField field rest

/-- Per-line salvage of Method 5 (lines 334-353): consider a line only when it
contains `sku` (case-insensitively) together with `name` or `price`; emit a
record only when both the sku and the name patterns match, defaulting price to
`"0"` and reason to `"Recommended product"`. -/
def method5line (line : List Char) : Option Json :=
  if containsSub "sku".data (lowerList line)
      && (containsSub "name".data (lowerList line)
          || containsSub "price".data (lowerList line)) then
    match reSearchField "sku".data line, reSearchField "name".data line with
    | some skuV, some nameV =>
      some (Json.obj
        [("sku", Json.str (String.mk skuV)),
         ("name", Json.str (String.mk nameV)),
         ("price", Json.str (match reSearchField "price".data line with
            | some p => String.mk p
            | none => "0")),
         ("reason", Json.str (match reSearchField "reason".data line with
            | some r => String.mk r
            | none => "Recommended product"))])
    | _, _ => none
  else none

/-- Method 5 (lines 328-359): split on newlines, salvage each qualifying line
in order, succeed when at least one record was produced. -/
def method5core (ci : List Char) : Option (List Json) :=
  match (splitNl ci).filterMap method5line with
  | [] => none
  | x :: xs => some (x :: xs)

/-- `PromptFactory.tryparse_llm` (lines 249-362): length gate, normalization,
then the five-stage cascade with each stage's own exception handling.  The
result is `Except.ok` of the Python return value; an `Except.error` would be
an exception escaping the function. -/
def tryparse_llm (input_str : String) : Except PyExc (List Json) :=
  if input_str.length < 10 then Except.ok []
  else
    let ci := cleanedInput input_str.data
    match method1except ci with
    | Except.error e => Except.error e
    | Except.ok (some r) => Except.ok r
    | Except.ok none =>
      match method2except ci with
      | Except.error e => Except.error e
      | Except.ok (some r) => Except.ok r
      | Except.ok none =>
        match method3core ci with
        | some r => Except.ok r
        | none =>
          match method4core ci with
          | some r => Except.ok r
          | none =>
            match method5core ci with
            | some r => Except.ok r
            | none => Except.ok []

/-- First stage of the cascade to yield a non-empty sequence, in order. -/
def firstSome : List (Option (List Json)) → List Json
  | [] => []
  | some r :: _ => r
  | none :: rest => firstSome rest

/-! ## Records and their serialization (spec §3, §8 round-trip) -/

/-- A valid Record (spec §3): string fields `sku`, `name`, `price`, `reason`. -/
structure Rec where
  sku : String
  name : String
  price : String
  reason : String

/-- The fields of a Record in serialization order. -/
def recFields (r : Rec) : List (String × Json) :=
  [("sku", Json.str r.sku), ("name", Json.str r.name),
   ("price", Json.str r.price), ("reason", Json.str r.reason)]

/-- The JSON object a Record denotes. -/
def recToJson (r : Rec) : Json := Json.obj (recFields r)

/-- Lower-case hexadecimal digit. -/
def hexDigit (n : Nat) : Char :=
  if n < 10 then Char.ofNat (48 + n) else Char.ofNat (87 + n)

/-- Modelled from the spec: serialization of a Record string value, escaping
exactly what well-formed JSON requires (quote, backslash, control characters
as `\u00XX`). -/
def escChar (c : Char) : List Char :=
  if c = '"' then ['\\', '"']
  else if c = '\\' then ['\\', '\\']
  else if c.toNat < 32 then
    ['\\', 'u', '0', '0', hexDigit (c.toNat / 16), hexDigit (c.toNat % 16)]
  else [c]

/-- Escape a whole string value. -/
def escString (s : List Char) : List Char := (s.map escChar).flatten

/-- A serialized JSON string literal. -/
def dumpStr (s : String) : List Char := '"' :: (escString s.data ++ ['"'])

/-- The members of a serialized Record object, in field order. -/
def dumpRecBody (r : Rec) : List Char :=
  dumpStr "sku" ++ (':' :: dumpStr r.sku) ++ (',' :: dumpStr "name")
    ++ (':' :: dumpStr r.name) ++ (',' :: dumpStr "price") ++ (':' :: dumpStr r.price)
    ++ (',' :: dumpStr "reason") ++ (':' :: dumpStr r.reason)

/-- A serialized Record object. -/
def dumpRec (r : Rec) : List Char := '\x7b' :: (dumpRecBody r ++ ['\x7d'])

/-- Comma-separated serialized Records. -/
def dumpsElems : List Rec → List Char
  | [] => []
  | [r] => dumpRec r
  | r :: r2 :: rest => dumpRec r ++ (',' :: dumpsElems (r2 :: rest))

/-- Modelled from the spec: "any well-formed JSON array of valid Records
serialized to text" (spec §8, round-trip); compact separators, standard JSON
string escaping. -/
def dumpsRecords (recs : List Rec) : List Char := '[' :: (dumpsElems recs ++ [']'])

/-- The spec's object-scan example input (spec §8):
`Item 1: {"sku":"A","name":"X"} Item 2: {"sku":"B","name":"Y"}`. -/
def objectScanExample : String :=
  "Item 1: \x7b\"sku\":\"A\",\"name\":\"X\"\x7d Item 2: \x7b\"sku\":\"B\",\"name\":\"Y\"\x7d"

/-- A valid Record whose sku contains a code-fence marker; its serialization
round-trips wrongly through `tryparse_llm` because normalization deletes the
backticks inside the JSON string. -/
def trickyRec : Rec := ⟨"a```b", "n", "1", "r"⟩

/-! ## Dictionary lemmas -/

theorem dictLookup_insert_self {α : Type} (l : List (String × α)) (k : String) (v : α) :
    dictLookup (dictInsert l k v) k = some v := by
  induction l with
  | nil => simp [dictInsert, dictLookup]
  | cons p rest ih =>
    obtain ⟨k1, v1⟩ := p
    by_cases h : k1 = k
    · simp [dictInsert, dictLookup, h]
    · simp [dictInsert, dictLookup, h, ih]

theorem dictLookup_insert_ne {α : Type} (l : List (String × α)) (k k2 : String) (v : α)
    (h : k2 ≠ k) : dictLookup (dictInsert l k v) k2 = dictLookup l k2 := by
  have hk : ¬ k = k2 := fun hh => h hh.symm
  induction l with
  | nil => simp [dictInsert, dictLookup, hk]
  | cons p rest ih =>
    obtain ⟨k1, v1⟩ := p
    by_cases h1 : k1 = k
    · simp [dictInsert, dictLookup, h1, hk]
    · simp [dictInsert, dictLookup, h1, ih]

theorem dictLookup_pop_self {α : Type} (l : List (String × α)) (k : String) :
    dictLookup (dictPop l k) k = none := by
  induction l with
  | nil => simp [dictPop, dictLookup]
  | cons p rest ih =>
    obtain ⟨k1, v1⟩ := p
    by_cases h : k1 = k
    · simp [dictPop, h, ih]
    · simp [dictPop, dictLookup, h, ih]

theorem dictLookup_pop_ne {α : Type} (l : List (String × α)) (k k2 : String)
    (h : k2 ≠ k) : dictLookup (dictPop l k) k2 = dictLookup l k2 := by
  have hk : ¬ k = k2 := fun hh => h hh.symm
  induction l with
  | nil => simp [dictPop, dictLookup]
  | cons p rest ih =>
    obtain ⟨k1, v1⟩ := p
    by_cases h1 : k1 = k
    · simp [dictPop, dictLookup, h1, hk, ih]
    · simp [dictPop, dictLookup, h1, ih]

/-! ## Cache-store claims -/

/-- C8: key derivation is pure (a function of its four inputs and the
process-fixed hash) and only the first 200 characters of the context
participate: contexts agreeing on that prefix give identical keys. -/
theorem cache_key_depends_only_on_context_prefix
    (h : String → Int) (sku : String) (c1 c2 : String) (num_recs : Int) (persona : String)
    (hpre : c1.data.take 200 = c2.data.take 200) :
    _get_cache_key h sku c1 num_recs persona = _get_cache_key h sku c2 num_recs persona := by
  simp [_get_cache_key, hpre]

theorem cache_key_depends_only_on_context_prefix_w :
    _get_cache_key (fun _ => 0) "SKU123" (String.mk (List.replicate 200 'a' ++ ['b'])) 5 "p"
      = _get_cache_key (fun _ => 0) "SKU123" (String.mk (List.replicate 200 'a' ++ ['c'])) 5 "p" :=
  cache_key_depends_only_on_context_prefix (fun _ => 0) "SKU123"
    (String.mk (List.replicate 200 'a' ++ ['b'])) (String.mk (List.replicate 200 'a' ++ ['c']))
    5 "p" (by decide)

/-- C5: reading an existing entry after the TTL has elapsed returns absent and
evicts the key from both dictionaries; reading it within the TTL returns the
stored sequence unchanged. -/
theorem cached_read_ttl_behavior
    (st : CacheState) (now : Int) (k : String) (v : List Json) (ts : Int)
    (hv : dictLookup st.response_cache k = some v)
    (ht : dictLookup st.cache_timestamps k = some ts) :
    (CACHE_TTL ≤ now - ts →
        _get_cached_response st now k
          = (none, ⟨dictPop st.response_cache k, dictPop st.cache_timestamps k⟩)
        ∧ dictLookup (dictPop st.response_cache k) k = none
        ∧ dictLookup (dictPop st.cache_timestamps k) k = none)
    ∧ (now - ts < CACHE_TTL → _get_cached_response st now k = (some v, st)) := by
  constructor
  · intro hexp
    have hlt : ¬ (now - ts < CACHE_TTL) := not_lt.mpr hexp
    refine ⟨?_, dictLookup_pop_self _ _, dictLookup_pop_self _ _⟩
    simp [_get_cached_response, hv, ht, hlt]
  · intro hfresh
    simp [_get_cached_response, hv, ht, hfresh]

theorem cached_read_ttl_behavior_w :
    (CACHE_TTL ≤ (400 : Int) - 0 →
        _get_cached_response ⟨[("k", [Json.null])], [("k", 0)]⟩ 400 "k"
          = (none, ⟨dictPop [("k", [Json.null])] "k", dictPop [("k", (0 : Int))] "k"⟩)
        ∧ dictLookup (dictPop [("k", [Json.null])] "k") "k" = none
        ∧ dictLookup (dictPop [("k", (0 : Int))] "k") "k" = none)
    ∧ ((400 : Int) - 0 < CACHE_TTL →
        _get_cached_response ⟨[("k", [Json.null])], [("k", 0)]⟩ 400 "k"
          = (some [Json.null], ⟨[("k", [Json.null])], [("k", 0)]⟩)) :=
  cached_read_ttl_behavior ⟨[("k", [Json.null])], [("k", 0)]⟩ 400 "k" [Json.null] 0 rfl rfl

/-- C1 counterexample: storing the *empty* sequence and reading it back within
the TTL (here immediately, at the same instant) yields absent, not the stored
empty sequence — `get_cached_response` tests `if cached:` and an empty Python
list is falsy. -/
theorem cache_put_get_empty_returns_absent :
    (get_cached_response
        (store_response_in_cache ⟨[], []⟩ 0 (fun _ => 0) "SKU123" "ctx" 5 "persona" [])
        0 (fun _ => 0) "SKU123" "ctx" 5 "persona").1 = none := rfl

/-- C1 (amended): for every *non-empty* stored result, `put` followed by `get`
with the same four key-derivation inputs before the TTL elapses returns
exactly the stored sequence. -/
theorem cache_put_get_roundtrip
    (st : CacheState) (h : String → Int) (sku context : String) (num_recs : Int)
    (persona : String) (r : List Json) (t1 t2 : Int)
    (hr : r ≠ []) (httl : t2 - t1 < CACHE_TTL) :
    (get_cached_response (store_response_in_cache st t1 h sku context num_recs persona r)
        t2 h sku context num_recs persona).1 = some r := by
  unfold get_cached_response store_response_in_cache _cache_response
  simp only [_get_cached_response, dictLookup_insert_self, Option.getD_some, httl, if_true]
  cases r with
  | nil => exact absurd rfl hr
  | cons a as => simp

theorem cache_put_get_roundtrip_w :
    (get_cached_response
        (store_response_in_cache ⟨[], []⟩ 0 (fun _ => 0) "SKU123" "ctx" 5 "persona" [Json.str "x"])
        10 (fun _ => 0) "SKU123" "ctx" 5 "persona").1 = some [Json.str "x"] :=
  cache_put_get_roundtrip ⟨[], []⟩ (fun _ => 0) "SKU123" "ctx" 5 "persona"
    [Json.str "x"] 0 10 (List.cons_ne_nil _ _) (by decide)

theorem cacheInSync_exec (st : CacheState) (op : CacheOp) (hst : cacheInSync st) :
    cacheInSync (cacheExec st op) := by
  cases op with
  | put k r t =>
    intro k2
    by_cases h : k2 = k
    · subst h
      simp [cacheExec, _cache_response, dictLookup_insert_self]
    · simp [cacheExec, _cache_response, dictLookup_insert_ne _ _ _ _ h, hst k2]
  | get k t =>
    intro k2
    cases hl : dictLookup st.response_cache k with
    | none => simpa [cacheExec, _get_cached_response, hl] using hst k2
    | some v =>
      by_cases hf : t - (dictLookup st.cache_timestamps k).getD 0 < CACHE_TTL
      · simpa [cacheExec, _get_cached_response, hl, hf] using hst k2
      · by_cases h : k2 = k
        · subst h
          simp [cacheExec, _get_cached_response, hl, hf, dictLookup_pop_self]
        · simpa [cacheExec, _get_cached_response, hl, hf,
            dictLookup_pop_ne _ _ _ h] using hst k2

theorem cacheInSync_foldl (ops : List CacheOp) (st : CacheState) (hst : cacheInSync st) :
    cacheInSync (ops.foldl cacheExec st) := by
  induction ops generalizing st with
  | nil => exact hst
  | cons op rest ih => exact ih (cacheExec st op) (cacheInSync_exec st op hst)

/-- C10: starting from the empty cache, any sequence of put (`_cache_response`)
and get (`_get_cached_response`) operations leaves the response and timestamp
dictionaries holding exactly the same keys: insertion writes both, lazy
eviction removes both. -/
theorem cache_maps_hold_same_keys (ops : List CacheOp) : cacheInSync (cacheRun ops) :=
  cacheInSync_foldl ops ⟨[], []⟩ (fun _ => rfl)

/-! ## Recovery-parser claims -/

/-- C6: an input shorter than 10 characters (including the empty string) is
rejected immediately with the empty sequence — the length gate precedes
normalization and every cascade stage. -/
theorem tryparse_short_input (s : String) (hshort : s.length < 10) :
    tryparse_llm s = Except.ok [] := by
  simp [tryparse_llm, hshort]

theorem tryparse_short_input_w : tryparse_llm "short" = Except.ok [] :=
  tryparse_short_input "short" (by decide)

theorem method1except_eq (ci : List Char) :
    method1except ci = Except.ok (method1core ci) := by
  unfold method1except method1core json_loads
  cases hjl : json_loads_opt ci with
  | none => rfl
  | some j =>
    cases j with
    | null => rfl
    | bool b => rfl
    | num n => rfl
    | str s => rfl
    | arr xs => cases xs <;> rfl
    | obj fs => rfl

theorem method2except_eq (ci : List Char) :
    method2except ci = Except.ok (method2core ci) := by
  unfold method2except method2core json_loads
  cases pyFind '[' ci 0 with
  | none => rfl
  | some start =>
    cases pyRFind ']' ci with
    | none => rfl
    | some stop =>
      by_cases hlt : start < stop
      · simp only [hlt, if_true]
        cases hjl : json_loads_opt ((ci.drop start).take (stop + 1 - start)) with
        | none => rfl
        | some j =>
          cases j with
          | null => rfl
          | bool b => rfl
          | num n => rfl
          | str s => rfl
          | arr xs => cases xs <;> rfl
          | obj fs => rfl
      · simp [hlt]

/-- C3: `tryparse_llm` terminates normally on every input: every stage-local
failure (parse error, regex non-match, and the failure of the repair
collaborator itself, a `NameError` absorbed by `except Exception`) is caught,
so the call always returns a value and the only failure signal is `[]`. -/
theorem tryparse_never_raises (s : String) : ∃ l, tryparse_llm s = Except.ok l := by
  by_cases hlen : s.length < 10
  · exact ⟨[], by simp [tryparse_llm, hlen]⟩
  · simp only [tryparse_llm, hlen, if_false, method1except_eq, method2except_eq]
    cases method1core (cleanedInput s.data) with
    | some r => exact ⟨r, rfl⟩
    | none =>
      cases method2core (cleanedInput s.data) with
      | some r => exact ⟨r, rfl⟩
      | none =>
        cases method3core (cleanedInput s.data) with
        | some r => exact ⟨r, rfl⟩
        | none =>
          cases method4core (cleanedInput s.data) with
          | some r => exact ⟨r, rfl⟩
          | none =>
            cases method5core (cleanedInput s.data) with
            | some r => exact ⟨r, rfl⟩
            | none => exact ⟨[], rfl⟩

/-- C4: past the length gate, `tryparse_llm` returns the result of the first
of the five stages (direct parse, bracket extraction, object scan, structural
repair, line salvage — in that fixed order, on the normalized text) to yield a
non-empty sequence, and `[]` when every stage yields nothing. -/
theorem tryparse_cascade (s : String) (hlen : 10 ≤ s.length) :
    tryparse_llm s
      = Except.ok (firstSome
          [method1core (cleanedInput s.data), method2core (cleanedInput s.data),
           method3core (cleanedInput s.data), method4core (cleanedInput s.data),
           method5core (cleanedInput s.data)]) := by
  have hlen2 : ¬ (s.length < 10) := not_lt.mpr hlen
  simp only [tryparse_llm, hlen2, if_false, method1except_eq, method2except_eq]
  cases method1core (cleanedInput s.data) with
  | some r => rfl
  | none =>
    cases method2core (cleanedInput s.data) with
    | some r => rfl
    | none =>
      cases method3core (cleanedInput s.data) with
      | some r => rfl
      | none =>
        cases method4core (cleanedInput s.data) with
        | some r => rfl
        | none =>
          cases method5core (cleanedInput s.data) with
          | some r => rfl
          | none => rfl

theorem tryparse_cascade_w :
    tryparse_llm "no json here at all in this text"
      = Except.ok (firstSome
          [method1core (cleanedInput "no json here at all in this text".data),
           method2core (cleanedInput "no json here at all in this text".data),
           method3core (cleanedInput "no json here at all in this text".data),
           method4core (cleanedInput "no json here at all in this text".data),
           method5core (cleanedInput "no json here at all in this text".data)]) :=
  tryparse_cascade "no json here at all in this text" (by decide)

/-- C7: on the spec's example — two standalone objects with sku "A" and sku
"B" separated by prose and no array brackets — the object scan recovers both
records, in encounter order, through the full `tryparse_llm` pipeline. -/
theorem object_scan_two_objects :
    tryparse_llm objectScanExample
      = Except.ok [Json.obj [("sku", Json.str "A"), ("name", Json.str "X")],
                   Json.obj [("sku", Json.str "B"), ("name", Json.str "Y")]] := rfl

/-- C9: in line-level salvage, exactly the lines containing `sku`
(case-insensitively) together with `name` or `price` are considered; a record
is emitted for a line iff both the sku and the name field-patterns match, with
price defaulting to "0" and reason to "Recommended product" when their
patterns fail; qualifying lines accumulate in order. -/
theorem line_salvage_characterization :
    (∀ ci : List Char,
        method5core ci
          = match (splitNl ci).filterMap method5line with
            | [] => none
            | x :: xs => some (x :: xs))
    ∧ (∀ line : List Char,
        (method5line line).isSome
          ↔ ((containsSub "sku".data (lowerList line)
                && (containsSub "name".data (lowerList line)
                    || containsSub "price".data (lowerList line))) = true
             ∧ (reSearchField "sku".data line).isSome
             ∧ (reSearchField "name".data line).isSome))
    ∧ (∀ (line skuV nameV : List Char),
        (containsSub "sku".data (lowerList line)
            && (containsSub "name".data (lowerList line)
                || containsSub "price".data (lowerList line))) = true →
        reSearchField "sku".data line = some skuV →
        reSearchField "name".data line = some nameV →
        method5line line
          = some (Json.obj
              [("sku", Json.str (String.mk skuV)),
               ("name", Json.str (String.mk nameV)),
               ("price", Json.str (match reSearchField "price".data line with
                  | some p => String.mk p
                  | none => "0")),
               ("reason", Json.str (match reSearchField "reason".data line with
                  | some r => String.mk r
                  | none => "Recommended product"))])) := by
  refine ⟨fun ci => rfl, fun line => ?_, fun line skuV nameV hcond hsku hname => ?_⟩
  · unfold method5line
    by_cases hcond : (containsSub "sku".data (lowerList line)
        && (containsSub "name".data (lowerList line)
            || containsSub "price".data (lowerList line))) = true
    · simp only [hcond, if_true]
      cases hs : reSearchField "sku".data line with
      | none => simp [hs, hcond]
      | some skuV =>
        cases hn : reSearchField "name".data line with
        | none => simp [hs, hn, hcond]
        | some nameV => simp [hs, hn, hcond]
    · simp [hcond]
  · unfold method5line
    simp [hcond, hsku, hname]

theorem line_salvage_characterization_w :
    method5line "\"sku\": \"A1\", \"name\": \"Widget\"".data
      = some (Json.obj
          [("sku", Json.str "A1"), ("name", Json.str "Widget"),
           ("price", Json.str "0"), ("reason", Json.str "Recommended product")]) :=
  line_salvage_characterization.2.2 "\"sku\": \"A1\", \"name\": \"Widget\"".data
    "A1".data "Widget".data rfl rfl rfl

theorem psb_quote (f : Nat) (rest : List Char) :
    parseStringBody (f + 1) ('"' :: rest) = some ([], rest) := by
  simp [parseStringBody]

theorem psb_esc_quote (f : Nat) (rest : List Char) :
    parseStringBody (f + 1) ('\\' :: '"' :: rest)
      = (parseStringBody f rest).map (fun p => ('"' :: p.1, p.2)) := by
  simp [parseStringBody]

theorem psb_esc_back (f : Nat) (rest : List Char) :
    parseStringBody (f + 1) ('\\' :: '\\' :: rest)
      = (parseStringBody f rest).map (fun p => ('\\' :: p.1, p.2)) := by
  simp [parseStringBody]

theorem hexVal_hexDigit (n : Nat) (h : n < 16) : hexVal (hexDigit n) = some n := by
  interval_cases n <;> decide

theorem psb_plain (f : Nat) (c : Char) (rest : List Char)
    (h1 : ¬ c = '"') (h2 : ¬ c = '\\') (h3 : ¬ c.toNat < 32) :
    parseStringBody (f + 1) (c :: rest)
      = (parseStringBody f rest).map (fun p => (c :: p.1, p.2)) := by
  simp [parseStringBody, h1, h2, h3]

theorem psb_u00 (f : Nat) (t : Nat) (rest : List Char) (ht : t < 32) :
    parseStringBody (f + 1)
        ('\\' :: 'u' :: '0' :: '0' :: hexDigit (t / 16) :: hexDigit (t % 16) :: rest)
      = (parseStringBody f rest).map (fun p => (Char.ofNat t :: p.1, p.2)) := by
  have h1 : t / 16 < 16 := by omega
  have h2 : t % 16 < 16 := by omega
  have hv0 : hexVal '0' = some 0 := by decide
  simp only [parseStringBody, hv0, hexVal_hexDigit _ h1, hexVal_hexDigit _ h2]
  have harith : 0 * 4096 + 0 * 256 + t / 16 * 16 + t % 16 = t := by omega
  rw [harith]
  have hs1 : ¬ (55296 ≤ t ∧ t ≤ 56319) := by omega
  have hs2 : ¬ (56320 ≤ t ∧ t ≤ 57343) := by omega
  simp [hs1, hs2]

theorem psb_escString (s : List Char) (rest : List Char) (fuel : Nat)
    (hfuel : (escString s).length < fuel) :
    parseStringBody fuel (escString s ++ '"' :: rest) = some (s, rest) := by
  induction s generalizing fuel with
  | nil =>
    obtain ⟨f, rfl⟩ : ∃ f, fuel = f + 1 := ⟨fuel - 1, by omega⟩
    simpa [escString] using psb_quote f rest
  | cons c cs ih =>
    obtain ⟨f, rfl⟩ : ∃ f, fuel = f + 1 := ⟨fuel - 1, by omega⟩
    have hesc : escString (c :: cs) = escChar c ++ escString cs := by
      simp [escString]
    rw [hesc] at hfuel ⊢
    rw [List.append_assoc]
    by_cases h1 : c = '"'
    · subst h1
      rw [show escChar '"' = ['\\', '"'] from rfl] at hfuel ⊢
      rw [show (['\\', '"'] : List Char) ++ (escString cs ++ '"' :: rest)
            = '\\' :: '"' :: (escString cs ++ '"' :: rest) from rfl]
      rw [psb_esc_quote, ih f (by simp at hfuel ⊢; omega)]
      rfl
    · by_cases h2 : c = '\\'
      · subst h2
        rw [show escChar '\\' = ['\\', '\\'] from rfl] at hfuel ⊢
        rw [show (['\\', '\\'] : List Char) ++ (escString cs ++ '"' :: rest)
              = '\\' :: '\\' :: (escString cs ++ '"' :: rest) from rfl]
        rw [psb_esc_back, ih f (by simp at hfuel ⊢; omega)]
        rfl
      · by_cases h3 : c.toNat < 32
        · have hesc2 : escChar c
              = ['\\', 'u', '0', '0', hexDigit (c.toNat / 16), hexDigit (c.toNat % 16)] := by
            simp [escChar, h1, h2, h3]
          rw [hesc2] at hfuel ⊢
          rw [show (['\\', 'u', '0', '0', hexDigit (c.toNat / 16), hexDigit (c.toNat % 16)] : List Char)
                ++ (escString cs ++ '"' :: rest)
                = '\\' :: 'u' :: '0' :: '0' :: hexDigit (c.toNat / 16) :: hexDigit (c.toNat % 16)
                  :: (escString cs ++ '"' :: rest) from rfl]
          rw [psb_u00 f c.toNat _ h3, ih f (by simp at hfuel ⊢; omega)]
          simp [Char.ofNat_toNat]
        · have hesc2 : escChar c = [c] := by simp [escChar, h1, h2, h3]
          rw [hesc2] at hfuel ⊢
          rw [show ([c] : List Char) ++ (escString cs ++ '"' :: rest)
                = c :: (escString cs ++ '"' :: rest) from rfl]
          rw [psb_plain f c _ h1 h2 h3, ih f (by simp at hfuel ⊢; omega)]
          rfl

theorem parseCore_succ_value (f : Nat) (l : List Char) :
    parseCore (f + 1) PMode.value l = scanValue (parseCore f) l := rfl

theorem parseCore_succ_elems (f : Nat) (l : List Char) :
    parseCore (f + 1) PMode.elems l = scanElems (parseCore f) l := rfl

theorem parseCore_succ_members (f : Nat) (l : List Char) :
    parseCore (f + 1) PMode.members l = scanMembers (parseCore f) l := rfl

theorem scanValue_quote (rec : PMode → List Char → Option (POut × List Char)) (r : List Char) :
    scanValue rec ('"' :: r)
      = (parseStringBody (r.length + 1) r).map
          (fun p => (POut.v (Json.str (String.mk p.1)), p.2)) := rfl

theorem scanValue_dumpStr (rec : PMode → List Char → Option (POut × List Char))
    (s : String) (rest : List Char) :
    scanValue rec (dumpStr s ++ rest) = some (POut.v (Json.str s), rest) := by
  rw [show dumpStr s ++ rest = '"' :: (escString s.data ++ '"' :: rest) by simp [dumpStr]]
  rw [scanValue_quote]
  rw [psb_escString s.data rest _ (by simp [List.length_append]; omega)]
  rfl

theorem scanMembers_keyval_comma (rec : PMode → List Char → Option (POut × List Char))
    (key val : String) (rest : List Char)
    (hv : rec PMode.value (dumpStr val ++ (',' :: rest))
            = some (POut.v (Json.str val), ',' :: rest)) :
    scanMembers rec (dumpStr key ++ (':' :: (dumpStr val ++ (',' :: rest))))
      = match rec PMode.members rest with
        | some (POut.ms ms, r5) => some (POut.ms ((key, Json.str val) :: ms), r5)
        | _ => none := by
  rw [show dumpStr key ++ (':' :: (dumpStr val ++ (',' :: rest)))
        = '"' :: (escString key.data ++ '"' :: (':' :: (dumpStr val ++ (',' :: rest))))
      by simp [dumpStr]]
  show (match parseStringBody ((escString key.data ++ '"' :: (':' :: (dumpStr val ++ (',' :: rest)))).length + 1)
          (escString key.data ++ '"' :: (':' :: (dumpStr val ++ (',' :: rest)))) with
        | some (k, r1) =>
          (match skipWs r1 with
           | ':' :: r2 =>
             (match rec PMode.value (skipWs r2) with
              | some (POut.v v, r3) =>
                (match skipWs r3 with
                 | ',' :: r4 =>
                   (match rec PMode.members r4 with
                    | some (POut.ms ms, r5) => some (POut.ms ((String.mk k, v) :: ms), r5)
                    | _ => none)
                 | '\x7d' :: r4 => some (POut.ms [(String.mk k, v)], r4)
                 | _ => none)
              | _ => none)
           | _ => none)
        | none => none) = _
  rw [psb_escString key.data _ _ (by simp [List.length_append]; omega)]
  show (match rec PMode.value (skipWs (dumpStr val ++ (',' :: rest))) with
        | some (POut.v v, r3) =>
          (match skipWs r3 with
           | ',' :: r4 =>
             (match rec PMode.members r4 with
              | some (POut.ms ms, r5) => some (POut.ms ((key, v) :: ms), r5)
              | _ => none)
           | '\x7d' :: r4 => some (POut.ms [(key, v)], r4)
           | _ => none)
        | _ => none) = _
  rw [show skipWs (dumpStr val ++ (',' :: rest)) = dumpStr val ++ (',' :: rest) from rfl]
  rw [hv]
  rfl

theorem scanMembers_keyval_close (rec : PMode → List Char → Option (POut × List Char))
    (key val : String) (rest : List Char)
    (hv : rec PMode.value (dumpStr val ++ ('\x7d' :: rest))
            = some (POut.v (Json.str val), '\x7d' :: rest)) :
    scanMembers rec (dumpStr key ++ (':' :: (dumpStr val ++ ('\x7d' :: rest))))
      = some (POut.ms [(key, Json.str val)], rest) := by
  rw [show dumpStr key ++ (':' :: (dumpStr val ++ ('\x7d' :: rest)))
        = '"' :: (escString key.data ++ '"' :: (':' :: (dumpStr val ++ ('\x7d' :: rest))))
      by simp [dumpStr]]
  show (match parseStringBody ((escString key.data ++ '"' :: (':' :: (dumpStr val ++ ('\x7d' :: rest)))).length + 1)
          (escString key.data ++ '"' :: (':' :: (dumpStr val ++ ('\x7d' :: rest)))) with
        | some (k, r1) =>
          (match skipWs r1 with
           | ':' :: r2 =>
             (match rec PMode.value (skipWs r2) with
              | some (POut.v v, r3) =>
                (match skipWs r3 with
                 | ',' :: r4 =>
                   (match rec PMode.members r4 with
                    | some (POut.ms ms, r5) => some (POut.ms ((String.mk k, v) :: ms), r5)
                    | _ => none)
                 | '\x7d' :: r4 => some (POut.ms [(String.mk k, v)], r4)
                 | _ => none)
              | _ => none)
           | _ => none)
        | none => none) = _
  rw [psb_escString key.data _ _ (by simp [List.length_append]; omega)]
  show (match rec PMode.value (skipWs (dumpStr val ++ ('\x7d' :: rest))) with
        | some (POut.v v, r3) =>
          (match skipWs r3 with
           | ',' :: r4 =>
             (match rec PMode.members r4 with
              | some (POut.ms ms, r5) => some (POut.ms ((key, v) :: ms), r5)
              | _ => none)
           | '\x7d' :: r4 => some (POut.ms [(key, v)], r4)
           | _ => none)
        | _ => none) = _
  rw [show skipWs (dumpStr val ++ ('\x7d' :: rest)) = dumpStr val ++ ('\x7d' :: rest) from rfl]
  rw [hv]
  rfl

theorem parseCore_members_record (f : Nat) (r : Rec) (rest : List Char) :
    parseCore (f + 5) PMode.members (dumpRecBody r ++ ('\x7d' :: rest))
      = some (POut.ms (recFields r), rest) := by
  have hshape : dumpRecBody r ++ ('\x7d' :: rest)
      = dumpStr "sku" ++ (':' :: (dumpStr r.sku ++ (',' :: (dumpStr "name" ++ (':' :: (dumpStr r.name ++ (',' :: (dumpStr "price" ++ (':' :: (dumpStr r.price ++ (',' :: (dumpStr "reason" ++ (':' :: (dumpStr r.reason ++ ('\x7d' :: rest))))))))))))))) := by
    simp [dumpRecBody, List.append_assoc]
  rw [hshape]
  rw [show f + 5 = (f + 4) + 1 from rfl, parseCore_succ_members (f + 4)]
  rw [scanMembers_keyval_comma (parseCore (f + 4)) "sku" r.sku _
      (by rw [show f + 4 = (f + 3) + 1 from rfl, parseCore_succ_value (f + 3),
              scanValue_dumpStr])]
  rw [show f + 4 = (f + 3) + 1 from rfl, parseCore_succ_members (f + 3)]
  rw [scanMembers_keyval_comma (parseCore (f + 3)) "name" r.name _
      (by rw [show f + 3 = (f + 2) + 1 from rfl, parseCore_succ_value (f + 2),
              scanValue_dumpStr])]
  rw [show f + 3 = (f + 2) + 1 from rfl, parseCore_succ_members (f + 2)]
  rw [scanMembers_keyval_comma (parseCore (f + 2)) "price" r.price _
      (by rw [show f + 2 = (f + 1) + 1 from rfl, parseCore_succ_value (f + 1),
              scanValue_dumpStr])]
  rw [show f + 2 = (f + 1) + 1 from rfl, parseCore_succ_members (f + 1)]
  rw [scanMembers_keyval_close (parseCore (f + 1)) "reason" r.reason rest
      (by rw [show f + 1 = f + 1 from rfl, parseCore_succ_value f, scanValue_dumpStr])]
  rfl

theorem parseCore_value_record (f : Nat) (r : Rec) (rest : List Char) :
    parseCore (f + 6) PMode.value (dumpRec r ++ rest) = some (POut.v (recToJson r), rest) := by
  rw [show dumpRec r ++ rest = '\x7b' :: (dumpRecBody r ++ ('\x7d' :: rest)) by simp [dumpRec]]
  rw [show f + 6 = (f + 5) + 1 from rfl, parseCore_succ_value (f + 5)]
  show (match parseCore (f + 5) PMode.members (dumpRecBody r ++ ('\x7d' :: rest)) with
        | some (POut.ms ms, r1) => some (POut.v (Json.obj ms), r1)
        | _ => none) = _
  rw [parseCore_members_record f r rest]
  rfl

theorem parseCore_elems_single (f : Nat) (r : Rec) (rest : List Char) :
    parseCore (f + 8) PMode.elems (dumpRec r ++ (']' :: rest))
      = some (POut.vs [recToJson r], rest) := by
  rw [show f + 8 = (f + 7) + 1 from rfl, parseCore_succ_elems (f + 7)]
  show (match parseCore (f + 7) PMode.value (skipWs (dumpRec r ++ (']' :: rest))) with
        | some (POut.v v, r2) =>
          (match skipWs r2 with
           | ',' :: r3 =>
             (match parseCore (f + 7) PMode.elems r3 with
              | some (POut.vs vs, r4) => some (POut.vs (v :: vs), r4)
              | _ => none)
           | ']' :: r3 => some (POut.vs [v], r3)
           | _ => none)
        | _ => none) = _
  rw [show skipWs (dumpRec r ++ (']' :: rest)) = dumpRec r ++ (']' :: rest) from rfl]
  rw [show f + 7 = (f + 1) + 6 from rfl, parseCore_value_record (f + 1)]
  rfl

theorem parseCore_elems_records (recs : List Rec) (f : Nat) (rest : List Char)
    (hne : recs ≠ []) :
    parseCore (recs.length + f + 7) PMode.elems (dumpsElems recs ++ (']' :: rest))
      = some (POut.vs (recs.map recToJson), rest) := by
  induction recs generalizing f with
  | nil => exact absurd rfl hne
  | cons r rs ih =>
    cases rs with
    | nil =>
      have hf : ([r] : List Rec).length + f + 7 = f + 8 := by simp; omega
      rw [hf, show dumpsElems [r] = dumpRec r from rfl]
      rw [parseCore_elems_single f r rest]
      rfl
    | cons r2 rs2 =>
      have hf : (r :: r2 :: rs2).length + f + 7 = ((r2 :: rs2).length + f + 7) + 1 := by
        simp [List.length_cons]; omega
      rw [hf, parseCore_succ_elems ((r2 :: rs2).length + f + 7)]
      rw [show dumpsElems (r :: r2 :: rs2) = dumpRec r ++ (',' :: dumpsElems (r2 :: rs2))
          from rfl]
      show (match parseCore ((r2 :: rs2).length + f + 7) PMode.value
              (skipWs ((dumpRec r ++ (',' :: dumpsElems (r2 :: rs2))) ++ (']' :: rest))) with
            | some (POut.v v, r3) =>
              (match skipWs r3 with
               | ',' :: r4 =>
                 (match parseCore ((r2 :: rs2).length + f + 7) PMode.elems r4 with
                  | some (POut.vs vs, r5) => some (POut.vs (v :: vs), r5)
                  | _ => none)
               | ']' :: r4 => some (POut.vs [v], r4)
               | _ => none)
            | _ => none) = _
      rw [List.append_assoc, List.cons_append]
      rw [show skipWs (dumpRec r ++ (',' :: (dumpsElems (r2 :: rs2) ++ (']' :: rest))))
            = dumpRec r ++ (',' :: (dumpsElems (r2 :: rs2) ++ (']' :: rest))) from rfl]
      rw [show (r2 :: rs2).length + f + 7 = ((r2 :: rs2).length + f + 1) + 6 from rfl,
          parseCore_value_record ((r2 :: rs2).length + f + 1)]
      show (match skipWs (',' :: (dumpsElems (r2 :: rs2) ++ (']' :: rest))) with
            | ',' :: r4 =>
              (match parseCore (((r2 :: rs2).length + f + 1) + 6) PMode.elems r4 with
               | some (POut.vs vs, r5) => some (POut.vs (recToJson r :: vs), r5)
               | _ => none)
            | ']' :: r4 => some (POut.vs [recToJson r], r4)
            | _ => none) = _
      rw [show skipWs (',' :: (dumpsElems (r2 :: rs2) ++ (']' :: rest)))
            = ',' :: (dumpsElems (r2 :: rs2) ++ (']' :: rest)) from rfl]
      show (match parseCore (((r2 :: rs2).length + f + 1) + 6) PMode.elems
              (dumpsElems (r2 :: rs2) ++ (']' :: rest)) with
            | some (POut.vs vs, r5) => some (POut.vs (recToJson r :: vs), r5)
            | _ => none) = _
      rw [show ((r2 :: rs2).length + f + 1) + 6 = (r2 :: rs2).length + (f + 1) + 6 from rfl]
      rw [show (r2 :: rs2).length + (f + 1) + 6 = (r2 :: rs2).length + f + 7 by omega]
      rw [ih f (by simp)]
      rfl

theorem dumpStr_length (s : String) : (dumpStr s).length = (escString s.data).length + 2 := by
  simp [dumpStr]

theorem dumpRec_length_ge (r : Rec) : 43 ≤ (dumpRec r).length := by
  have h1 : (dumpStr "sku").length = 5 := rfl
  have h2 : (dumpStr "name").length = 6 := rfl
  have h3 : (dumpStr "price").length = 7 := rfl
  have h4 : (dumpStr "reason").length = 8 := rfl
  have v1 := dumpStr_length r.sku
  have v2 := dumpStr_length r.name
  have v3 := dumpStr_length r.price
  have v4 := dumpStr_length r.reason
  simp only [dumpRec, dumpRecBody, List.length_append, List.length_cons, h1, h2, h3, h4,
    v1, v2, v3, v4]
  omega

theorem dumpsElems_length_ge (recs : List Rec) :
    43 * recs.length ≤ (dumpsElems recs).length := by
  induction recs with
  | nil => simp [dumpsElems]
  | cons r rs ih =>
    cases rs with
    | nil =>
      have h := dumpRec_length_ge r
      simpa [dumpsElems] using h
    | cons r2 rs2 =>
      have h := dumpRec_length_ge r
      simp only [dumpsElems, List.length_append, List.length_cons] at ih ⊢
      omega

theorem dumpsRecords_length (recs : List Rec) :
    (dumpsRecords recs).length = (dumpsElems recs).length + 2 := by
  simp [dumpsRecords]

theorem dumpsElems_cons_head (r : Rec) (rs : List Rec) :
    ∃ t, dumpsElems (r :: rs) = '\x7b' :: t := by
  cases rs with
  | nil => exact ⟨dumpRecBody r ++ ('\x7d' :: []), by simp [dumpsElems, dumpRec]⟩
  | cons a b =>
    exact ⟨(dumpRecBody r ++ ('\x7d' :: [])) ++ (',' :: dumpsElems (a :: b)),
      by simp [dumpsElems, dumpRec, List.append_assoc]⟩

theorem scanValue_bracket_obj (rec : PMode → List Char → Option (POut × List Char))
    (X t : List Char) (h : X = '\x7b' :: t) :
    scanValue rec ('[' :: X)
      = match rec PMode.elems X with
        | some (POut.vs vs, r1) => some (POut.v (Json.arr vs), r1)
        | _ => none := by
  subst h
  rfl

theorem json_loads_opt_dumps (r : Rec) (rs : List Rec) :
    json_loads_opt (dumpsRecords (r :: rs)) = some (Json.arr ((r :: rs).map recToJson)) := by
  have hlen : 43 * (r :: rs).length ≤ (dumpsElems (r :: rs)).length := dumpsElems_length_ge _
  have hlen2 : (dumpsRecords (r :: rs)).length = (dumpsElems (r :: rs)).length + 2 :=
    dumpsRecords_length _
  have hn : 1 ≤ (r :: rs).length := by simp
  obtain ⟨f0, hf0⟩ : ∃ f0,
      2 * (dumpsRecords (r :: rs)).length + 2 = ((r :: rs).length + f0 + 7) + 1 :=
    ⟨2 * (dumpsRecords (r :: rs)).length + 2 - (r :: rs).length - 8, by omega⟩
  obtain ⟨t, ht⟩ := dumpsElems_cons_head r rs
  have ht2 : dumpsElems (r :: rs) ++ (']' :: ([] : List Char))
      = '\x7b' :: (t ++ (']' :: [])) := by
    rw [ht]
    rfl
  unfold json_loads_opt
  rw [hf0]
  rw [show skipWs (dumpsRecords (r :: rs)) = dumpsRecords (r :: rs) from rfl]
  rw [show dumpsRecords (r :: rs)
        = '[' :: (dumpsElems (r :: rs) ++ (']' :: ([] : List Char))) from rfl]
  rw [parseCore_succ_value ((r :: rs).length + f0 + 7)]
  rw [scanValue_bracket_obj (parseCore ((r :: rs).length + f0 + 7))
      (dumpsElems (r :: rs) ++ (']' :: ([] : List Char))) (t ++ (']' :: [])) ht2]
  rw [parseCore_elems_records (r :: rs) f0 [] (by simp)]
  rfl

theorem replaceTicks_eq_self (l : List Char) (h : containsSub "```".data l = false) :
    replaceTicks l = l := by
  induction l with
  | nil => rfl
  | cons c rest ih =>
    have h2 : ("```".data.isPrefixOf (c :: rest) || containsSub "```".data rest) = false := h
    rw [Bool.or_eq_false_iff] at h2
    obtain ⟨hp, hrest⟩ := h2
    rw [replaceTicks.eq_def]
    split
    · rename_i rest2 heq
      rw [heq] at hp
      simp [List.isPrefixOf] at hp
    · rename_i c2 rest2 hne heq
      obtain ⟨h1, h2⟩ := List.cons.inj heq
      subst h1
      subst h2
      rw [ih hrest]
    · rename_i heq
      exact absurd heq (List.cons_ne_nil _ _)

theorem replaceTicksJson_eq_self (l : List Char) (h : containsSub "```".data l = false) :
    replaceTicksJson l = l := by
  induction l with
  | nil => rfl
  | cons c rest ih =>
    have h2 : ("```".data.isPrefixOf (c :: rest) || containsSub "```".data rest) = false := h
    rw [Bool.or_eq_false_iff] at h2
    obtain ⟨hp, hrest⟩ := h2
    rw [replaceTicksJson.eq_def]
    split
    · rename_i rest2 heq
      rw [heq] at hp
      simp [List.isPrefixOf] at hp
    · rename_i c2 rest2 hne heq
      obtain ⟨h1, h2⟩ := List.cons.inj heq
      subst h1
      subst h2
      rw [ih hrest]
    · rename_i heq
      exact absurd heq (List.cons_ne_nil _ _)

theorem pyStrip_bracketed (x : List Char) :
    pyStrip ('[' :: (x ++ (']' :: []))) = '[' :: (x ++ (']' :: [])) := by
  have hb : isPyWs '[' = false := rfl
  have he : isPyWs ']' = false := rfl
  simp [pyStrip, List.dropWhile_cons, hb, he, List.reverse_append]

theorem cleanedInput_dumps (recs : List Rec)
    (h : containsSub "```".data (dumpsRecords recs) = false) :
    cleanedInput (dumpsRecords recs) = dumpsRecords recs := by
  have hb : pyStrip (dumpsRecords recs) = dumpsRecords recs := by
    rw [show dumpsRecords recs = '[' :: (dumpsElems recs ++ (']' :: [])) from rfl]
    exact pyStrip_bracketed _
  unfold cleanedInput
  rw [replaceTicksJson_eq_self _ h, replaceTicks_eq_self _ h, hb,
      replaceTicks_eq_self _ h, hb]

/-- C2 (amended): round-trip holds whenever the serialized text contains no
triple-backtick run — normalization (`replace("```json","")`,
`replace("```","")`) deletes backtick fences even inside JSON string values,
which is exactly what the counterexample exploits. -/
theorem roundtrip_no_fence (recs : List Rec)
    (h : containsSub "```".data (dumpsRecords recs) = false) :
    tryparse_llm (String.mk (dumpsRecords recs)) = Except.ok (recs.map recToJson) := by
  cases recs with
  | nil => rfl
  | cons r rs =>
    have hlen : 43 * (r :: rs).length ≤ (dumpsElems (r :: rs)).length := dumpsElems_length_ge _
    have hlen2 : (dumpsRecords (r :: rs)).length = (dumpsElems (r :: rs)).length + 2 :=
      dumpsRecords_length _
    have hn : 1 ≤ (r :: rs).length := by simp
    have hlen10 : ¬ ((String.mk (dumpsRecords (r :: rs))).length < 10) := by
      rw [show (String.mk (dumpsRecords (r :: rs))).length = (dumpsRecords (r :: rs)).length
          from rfl]
      omega
    have hclean : cleanedInput (String.mk (dumpsRecords (r :: rs))).data
        = dumpsRecords (r :: rs) := by
      rw [show (String.mk (dumpsRecords (r :: rs))).data = dumpsRecords (r :: rs) from rfl]
      exact cleanedInput_dumps _ h
    have hm1 : method1core (cleanedInput (String.mk (dumpsRecords (r :: rs))).data)
        = some ((r :: rs).map recToJson) := by
      rw [hclean]
      unfold method1core
      rw [json_loads_opt_dumps r rs]
      rfl
    simp only [tryparse_llm, hlen10, if_false, method1except_eq, hm1]

/-- C2 counterexample: a valid Record whose sku contains "```" serializes to
well-formed JSON, but `tryparse_llm` returns a record with the backticks
deleted from the sku, so the round-trip does not hold as claimed. -/
theorem roundtrip_fence_counterexample :
    tryparse_llm (String.mk (dumpsRecords [trickyRec]))
      ≠ Except.ok [recToJson trickyRec] := by
  intro hcontra
  have hval : tryparse_llm (String.mk (dumpsRecords [trickyRec]))
      = Except.ok [Json.obj [("sku", Json.str "ab"), ("name", Json.str "n"),
          ("price", Json.str "1"), ("reason", Json.str "r")]] := rfl
  rw [hval] at hcontra
  simp [recToJson, recFields, trickyRec] at hcontra

theorem roundtrip_no_fence_w :
    tryparse_llm (String.mk (dumpsRecords [⟨"A", "X", "1", "r"⟩]))
      = Except.ok ([(⟨"A", "X", "1", "r"⟩ : Rec)].map recToJson) :=
  roundtrip_no_fence [⟨"A", "X", "1", "r"⟩] (by decide)
